import Mathlib

/-!
Verification development for the OptionStratLib core.

The Rust sources are shallowly embedded: `rust_decimal::Decimal` values are
modelled as rationals (`ℚ`), with the 96-bit-mantissa bound and the 28-digit
division rounding of `Decimal` left out of the model (all inputs appearing in
the theorems below stay well inside those bounds); machine panics are
modelled as `Except.error` values whose message starts with `panic:` when the
source aborts, and as the source error string otherwise.  Where a claim is
decided by behaviour of `f64` conversions, the conversion is taken as a
parameter of the definition rather than modelled bit for bit, and the
theorems only exercise branches that never consult it.

Functions whose defining module is not part of the staged sources (only
their callers or tests are) carry a doc comment starting `Modelled from the
spec:` and follow the specification text.
-/

namespace OptionStrat

/-! ## Decimal model

`Decimal` values are rationals.  `Decimal::MAX` is `79228162514264337593543950335`
(2^96 - 1) and `Decimal::MIN` its negation; `Positive::INFINITY` wraps
`Decimal::MAX`. -/

/-- The value of `Decimal::MAX`, `2^96 - 1`. -/
def decimalMAX : ℚ := 79228162514264337593543950335

/-- The value of `Decimal::MIN`, `-(2^96 - 1)`. -/
def decimalMIN : ℚ := -79228162514264337593543950335

/-- The value of `i64::MAX`. -/
def i64Max : ℤ := 9223372036854775807

/-- The value of `i64::MIN`. -/
def i64Min : ℤ := -9223372036854775808

/-- Decidable equality for `Except`, so that concrete evaluations of the
embedded fallible functions can be settled by `decide`. -/
instance exceptDecEq {ε α : Type} [DecidableEq ε] [DecidableEq α] :
    DecidableEq (Except ε α) := fun x y =>
  match x, y with
  | .ok a, .ok b =>
      if h : a = b then .isTrue (by rw [h]) else .isFalse (by simp [h])
  | .error e, .error f =>
      if h : e = f then .isTrue (by rw [h]) else .isFalse (by simp [h])
  | .ok _, .error _ => .isFalse (by simp)
  | .error _, .ok _ => .isFalse (by simp)

/-- Round a rational to the nearest integer, ties to even: the midpoint rule
of `rust_decimal`'s default rounding (`MidpointNearestEven`), used by
`Decimal::round_dp`. -/
def roundHalfEven (x : ℚ) : ℤ :=
  let f : ℤ := Int.floor x
  let r : ℚ := x - f
  if r < 1/2 then f
  else if 1/2 < r then f + 1
  else if f % 2 = 0 then f else f + 1

/-- Model of `Decimal::round_dp(dp)`: round to `dp` decimal places with the
banker's (half-to-even) rule. -/
def roundDp (dp : ℕ) (x : ℚ) : ℚ :=
  (roundHalfEven (x * 10 ^ dp) : ℚ) / 10 ^ dp

/-! ## The `Positive` wrapper (src/src/model/positive.rs)

`pub struct Positive(pub(crate) Decimal)` — a newtype over `Decimal`.  The
struct itself does not enforce the sign: crate code can (and, through
`impl Sub<Decimal>`, does) build a `Positive` holding a negative value, so
the model is a plain wrapper and the guards live in the constructors. -/

/-- Model of `Positive`: a wrapper over a `Decimal` (here `ℚ`).  The
non-negativity invariant is enforced by constructors, not by the type,
mirroring the `pub(crate)` field of the source. -/
structure Positive where
  val : ℚ
deriving DecidableEq

/-- Model of `Positive::new(value: f64)`.  The source first computes
`Decimal::from_f64(value)` — a floating-point conversion outside this
embedding — and then matches on the resulting `Option<Decimal>`; the model
takes that `Option` as its argument and embeds the match.  For the literals
used below, `from_f64(0.0) = Some(0)`. -/
def Positive.new (dec : Option ℚ) : Except String Positive :=
  match dec with
  | some value => if 0 ≤ value then .ok ⟨value⟩ else .error "Value must be positive"
  | none => .error "Failed to parse as Decimal"

/-- Model of `Positive::new_decimal(value: Decimal)`. -/
def Positive.new_decimal (value : ℚ) : Except String Positive :=
  if 0 ≤ value then .ok ⟨value⟩ else .error "Value must be positive"

/-- Model of `Positive::ZERO`. -/
def Positive.zero : Positive := ⟨0⟩

/-- Model of `Positive::INFINITY`, wrapping `Decimal::MAX`. -/
def Positive.infinity : Positive := ⟨decimalMAX⟩

/-- Model of `impl Sub for Positive` (positive.rs lines 731-742): compute
`self.0 - rhs.0` and panic — here `Except.error` — when the result is
negative. -/
def Positive.sub (a b : Positive) : Except String Positive :=
  let result := a.val - b.val
  if result < 0 then .error "Resulting value must be positive" else .ok ⟨result⟩

/-- Model of `impl Sub<Decimal> for Positive` (positive.rs lines 768-774):
`Positive(self.0 - rhs)` with no guard — the wrapped value can be negative. -/
def Positive.subDec (a : Positive) (rhs : ℚ) : Positive :=
  ⟨a.val - rhs⟩

/-- Model of `impl Sub<&Decimal> for Positive` (positive.rs lines 776-782):
`(self.0 - rhs).into()`, which runs `Positive::new_decimal(..).expect(..)`
and so panics on a negative result. -/
def Positive.subDecRef (a : Positive) (rhs : ℚ) : Except String Positive :=
  Positive.new_decimal (a.val - rhs)

/-- Model of `impl Add for Positive`. -/
def Positive.add (a b : Positive) : Positive := ⟨a.val + b.val⟩

/-- Model of `impl Div for Positive`.  `Decimal` division panics on a zero
divisor; every use below is guarded by a positivity hypothesis, and the
model returns the rational quotient. -/
def Positive.div (a b : Positive) : Positive := ⟨a.val / b.val⟩

/-- Model of `Positive::round_to(decimal_places)`, i.e. `Decimal::round_dp`. -/
def Positive.round_to (a : Positive) (dp : ℕ) : Positive := ⟨roundDp dp a.val⟩

/-! ## Decimal string parsing and `FromStr for Positive`

`impl FromStr for Positive` (positive.rs lines 490-500) parses the string as
a `Decimal` and accepts only strictly positive values (`value > ZERO`), in
contrast with `Positive::new` / `new_decimal`, which accept zero. -/

/-- Core of the `Decimal` string parser: digits with at most one decimal
point; underscores between digits are skipped, as `rust_decimal` does.
`seenDigit` records whether any digit has appeared; a string with none
fails. -/
def parseDecCore : List Char → ℤ → ℕ → Bool → Bool → Option ℚ
  | [], acc, scale, seenDigit, _ =>
      if seenDigit then some ((acc : ℚ) / 10 ^ scale) else none
  | c :: t, acc, scale, seenDigit, seenPoint =>
      if c = '.' then
        if seenPoint then none else parseDecCore t acc scale seenDigit true
      else if c = '_' then parseDecCore t acc scale seenDigit seenPoint
      else if c.isDigit then
        parseDecCore t (acc * 10 + (c.toNat - 48 : ℕ))
          (if seenPoint then scale + 1 else scale) true seenPoint
      else none

/-- Model of `str::parse::<Decimal>()`: an optional sign, then digits with at
most one decimal point.  (Scientific notation and the 28-digit cap of
`rust_decimal` are not modelled; no theorem below depends on them.) -/
def parseDecimal (s : String) : Option ℚ :=
  match s.data with
  | [] => none
  | c :: t =>
      if c = '-' then (parseDecCore t 0 0 false false).map (fun q => -q)
      else if c = '+' then parseDecCore t 0 0 false false
      else parseDecCore (c :: t) 0 0 false false

/-- Model of `impl FromStr for Positive`: parse as `Decimal`, then accept
only `value > ZERO` — strictly positive, unlike the constructors. -/
def Positive.from_str (s : String) : Except String Positive :=
  match parseDecimal s with
  | some value => if 0 < value then .ok ⟨value⟩ else .error "Value must be positive"
  | none => .error "Failed to parse as Decimal"

/-! ## JSON serialization of `Positive` (positive.rs lines 627-721)

The serializer emits the string `"infinity"` for the sentinel, an `i64` when
the decimal has scale zero, and otherwise an `f64`.  Scale is a property of
the `Decimal` representation, not of its value, so this part of the model
works on an explicit representation `(mantissa, scale)` with value
`mantissa / 10^scale`.  The two `f64` conversions (`Decimal::to_f64` on the
way out, `Decimal::from_f64` on the way in) are floating point and outside
the embedding: they are parameters of the definitions, and the theorems only
exercise branches that never call them. -/

/-- A `rust_decimal::Decimal` representation: integer mantissa and decimal
scale, value `m / 10^scale`.  (`rust_decimal` bounds `|m| < 2^96` and
`scale ≤ 28`; the bounds are not needed by the theorems below.) -/
structure DecimalRepr where
  m : ℤ
  scale : ℕ
deriving DecidableEq

/-- The numeric value of a `DecimalRepr`.  `Decimal`'s `PartialEq` (and hence
the derived equality of `Positive`) compares values, ignoring trailing
zeros, so round-trip equality below is equality of `toRat`. -/
def DecimalRepr.toRat (d : DecimalRepr) : ℚ := (d.m : ℚ) / 10 ^ d.scale

/-- A JSON value as the `Positive` serializer produces and the deserializer
consumes: an integer (`serialize_i64`/`visit_i64`/`visit_u64`), a float
(`serialize_f64`/`visit_f64`, carried as the rational value of the binary64
number), or a string. -/
inductive JsonValue where
  | int (i : ℤ)
  | float (x : ℚ)
  | str (s : String)
deriving DecidableEq

/-- Model of `impl Serialize for Positive` (lines 627-653): `"infinity"` for
the sentinel (a value comparison, `*self == Positive::INFINITY`), `to_i64`
as an integer when the scale is zero (failing when the mantissa leaves the
`i64` range), and otherwise `to_f64` as a float.  `toF64` stands for the
floating-point conversion `Decimal::to_f64`. -/
def serializePositive (toF64 : DecimalRepr → Option ℚ) (d : DecimalRepr) :
    Except String JsonValue :=
  if d.toRat = decimalMAX then .ok (.str "infinity")
  else if d.scale = 0 then
    if i64Min ≤ d.m ∧ d.m ≤ i64Max then .ok (.int d.m)
    else .error "Failed to convert Decimal to i64"
  else
    match toF64 d with
    | some x => .ok (.float x)
    | none => .error "Failed to convert Decimal to f64"

/-- ASCII lower-casing of one character, the primitive of
`str::eq_ignore_ascii_case`. -/
def asciiToLower (c : Char) : Char :=
  if 'A' ≤ c ∧ c ≤ 'Z' then Char.ofNat (c.toNat + 32) else c

/-- Model of `str::eq_ignore_ascii_case`. -/
def eqIgnoreAsciiCase (a b : String) : Bool :=
  a.data.map asciiToLower == b.data.map asciiToLower

/-- Model of `impl Deserialize for Positive` (lines 655-721).  A JSON
integer reaches `visit_u64` when non-negative (then `Decimal::from(u64)` and
the `new_decimal` guard) and `visit_i64` when negative (rejected); a string
is accepted only as `"infinity"` (ASCII case-insensitive); a float is
rejected when negative, else converted through `Decimal::from_f64`
(`fromF64` here) and checked non-negative. -/
def deserializePositive (fromF64 : ℚ → Option DecimalRepr) (j : JsonValue) :
    Except String DecimalRepr :=
  match j with
  | .str s =>
      if eqIgnoreAsciiCase s "infinity" then .ok ⟨79228162514264337593543950335, 0⟩
      else .error "Invalid string"
  | .int i =>
      if i < 0 then .error "Expected a non-negative integer"
      else .ok ⟨i, 0⟩
  | .float x =>
      match fromF64 x with
      | none => .error "Failed to convert f64 to Decimal"
      | some d =>
          if x < 0 then .error "Expected a non-negative float"
          else if 0 ≤ d.toRat then .ok d else .error "Value must be positive"

/-! ## ProfitLossRange (src/src/model/profit_range.rs)

The bounds are `Option<PositiveF64>` (`None` stands for an infinite end);
the only operation `new` performs on them is the `>=` comparison, modelled
on the wrapped rationals. -/

/-- Model of `ProfitLossRange`: optional lower and upper price bounds and a
probability. -/
structure ProfitLossRange where
  lower_bound : Option Positive
  upper_bound : Option Positive
  probability : Positive
deriving DecidableEq

/-- Model of `ProfitLossRange::new` (profit_range.rs lines 39-56): when both
bounds are present and `lower >= upper`, fail; otherwise return the range
holding exactly the given bounds and probability. -/
def ProfitLossRange.new (lower_bound upper_bound : Option Positive)
    (probability : Positive) : Except String ProfitLossRange :=
  match lower_bound, upper_bound with
  | some lower, some upper =>
      if upper.val ≤ lower.val then .error "Lower bound must be less than upper bound"
      else .ok ⟨lower_bound, upper_bound, probability⟩
  | _, _ => .ok ⟨lower_bound, upper_bound, probability⟩

/-! ## Contract and position model

The staged `src/src/model/option.rs` and `src/src/strategies/base.rs` are an
older `f64` revision that the staged `straddle.rs` / `butterfly_spread.rs`
do not compile against (they use `Positive` fields and `Result` returns), so
the data carried by a leg is embedded with the field set those strategy
files actually read, and the missing `Position` methods are modelled from
the spec where marked. -/

/-- Model of `OptionStyle`. -/
inductive OptionStyle where
  | call
  | put
deriving DecidableEq

/-- Model of `Side`. -/
inductive Side where
  | long
  | short
deriving DecidableEq

/-- Model of `OptionType`; only the variants the modelled strategies build. -/
inductive OptionType where
  | european
  | american
deriving DecidableEq

/-- Model of `ExpirationDate`: a number of days from now.  The absolute
`DateTime` variant depends on the wall clock and is outside the embedding;
no claim needs it. -/
inductive ExpirationDate where
  | days (d : ℚ)
deriving DecidableEq

/-- Model of `StrategyType`; the variants of the strategies modelled here. -/
inductive StrategyType where
  | shortStraddle
  | longStraddle
  | longButterflySpread
deriving DecidableEq

/-- Model of the `Options` contract with the fields the strategy code
reads.  `exotic_params` is always `None` in the modelled constructors and is
omitted. -/
structure Options where
  option_type : OptionType
  side : Side
  underlying_symbol : String
  strike_price : Positive
  expiration_date : ExpirationDate
  implied_volatility : Positive
  quantity : Positive
  underlying_price : Positive
  risk_free_rate : ℚ
  option_style : OptionStyle
  dividend_yield : Positive
deriving DecidableEq

/-- The spec constant `MIN_VOL = 1e-8`. -/
def minVol : ℚ := 1 / 100000000

/-- The spec constant `MAX_VOL = 100.0`. -/
def maxVol : ℚ := 100

/-- Modelled from the spec: `Options::validate` (the current revision of
model/option.rs is not in the staged sources).  Spec section 3: implied
volatility lies in `(MIN_VOL, MAX_VOL)` and the strike is positive; spec
section 7 lists zero quantity as a validation error. -/
def Options.validate (o : Options) : Bool :=
  decide (0 < o.strike_price.val) && decide (0 < o.quantity.val) &&
    decide (minVol < o.implied_volatility.val) &&
    decide (o.implied_volatility.val < maxVol)

/-- Model of `Position`: an option plus premium and fees.  The `date` field
(a wall-clock instant, always `Utc::now()` in the modelled constructors) is
outside the embedding and not read by any modelled computation. -/
structure Position where
  option : Options
  premium : Positive
  open_fee : Positive
  close_fee : Positive
deriving DecidableEq

/-- Modelled from the spec: `Position::validate` (model/position.rs is not in
the staged sources).  Spec section 4.4: premium and fees are non-negative
and the option passes its own validation. -/
def Position.validate (p : Position) : Bool :=
  decide (0 ≤ p.premium.val) && decide (0 ≤ p.open_fee.val) &&
    decide (0 ≤ p.close_fee.val) && p.option.validate

/-- Modelled from the spec: `Position::fees` — the open and close fee per
contract times the quantity (model/position.rs is not in the staged
sources). -/
def Position.fees (p : Position) : ℚ :=
  (p.open_fee.val + p.close_fee.val) * p.option.quantity.val

/-- Modelled from the spec: the net premium a leg receives — for a short leg
the premium collected per contract times quantity, net of its fees (spec
sections 3 and 4.6: short-straddle max profit equals total net premium
received, `C - fees`); a long leg receives nothing. -/
def Position.net_premium_received (p : Position) : ℚ :=
  match p.option.side with
  | .short => p.premium.val * p.option.quantity.val - p.fees
  | .long => 0

/-- A `Position::default()`: all numeric fields zero (overwritten before
being read in every modelled construction). -/
def Position.default : Position :=
  ⟨⟨.european, .long, "", ⟨0⟩, .days 0, ⟨0⟩, ⟨0⟩, ⟨0⟩, 0, .call, ⟨0⟩⟩, ⟨0⟩, ⟨0⟩, ⟨0⟩⟩

/-- Insert into a list sorted ascending by the wrapped value: the step of
`Vec::sort` as used on the two-element break-even vectors (stable,
ascending). -/
def insertPosSorted (x : Positive) : List Positive → List Positive
  | [] => [x]
  | y :: t => if x.val < y.val then x :: y :: t else y :: insertPosSorted x t

/-- Model of `Vec::<Positive>::sort()`: insertion sort, ascending and
stable. -/
def sortPositives (l : List Positive) : List Positive :=
  l.foldr insertPosSorted []

/-! ## ShortStraddle (src/src/strategies/straddle.rs)

State-passing embedding: methods taking `&mut self` return the updated
strategy, and panics (`expect`, `panic!`, failed `assert!`) become
`Except.error` values whose message starts with `panic:`. -/

/-- The constant `SHORT_STRADDLE_DESCRIPTION` (abbreviated). -/
def shortStraddleDescription : String := "Short Straddle strategy"

/-- Model of `ShortStraddle` (straddle.rs lines 113-127). -/
structure ShortStraddle where
  name : String
  kind : StrategyType
  description : String
  break_even_points : List Positive
  short_call : Position
  short_put : Position
deriving DecidableEq

/-- Model of `Positionable::add_position` for `ShortStraddle` (straddle.rs
lines 374-386): the position is cloned into the slot matching its option
style — a call into `short_call`, a put into `short_put` — and the call
always succeeds; side and strike are not examined. -/
def ShortStraddle.add_position (s : ShortStraddle) (position : Position) :
    Except String ShortStraddle :=
  match position.option.option_style with
  | .call => .ok { s with short_call := position }
  | .put => .ok { s with short_put := position }

/-- Modelled from the spec: the `Strategies` default `net_premium_received`
(the staged strategies/base.rs is an older revision without it) — the sum
over the legs of the net premium each receives.  The result is wrapped
without a sign guard: `ShortStraddle::max_profit` in the staged source
explicitly tests the wrapped value for negativity, so a negative net credit
must be representable here. -/
def ShortStraddle.net_premium_received (s : ShortStraddle) : Except String Positive :=
  .ok ⟨s.short_call.net_premium_received + s.short_put.net_premium_received⟩

/-- Model of `BreakEvenable::update_break_even_points` for `ShortStraddle`
(straddle.rs lines 352-371): clear the cache, then push
`short_put.strike - (total_premium / short_put.quantity)` — through the
unguarded `Sub<Decimal>` — and
`short_call.strike + (total_premium / short_call.quantity)`, each rounded to
two decimals, and sort ascending. -/
def ShortStraddle.update_break_even_points (s : ShortStraddle) :
    Except String ShortStraddle := do
  let total_premium ← s.net_premium_received
  let be_low :=
    (s.short_put.option.strike_price.subDec
      (total_premium.div s.short_put.option.quantity).val).round_to 2
  let be_high :=
    ((s.short_call.option.strike_price.add
      (total_premium.div s.short_call.option.quantity)).round_to 2)
  .ok { s with break_even_points := sortPositives [be_low, be_high] }

/-- Model of `Strategies::max_profit` for `ShortStraddle` (straddle.rs lines
490-501): the net premium received, an error when it is negative.  The
source routes the value through `to_f64` and back; the conversion is treated
as exact (the claims never exercise values near the `f64` precision
limit). -/
def ShortStraddle.max_profit (s : ShortStraddle) : Except String Positive := do
  let np ← s.net_premium_received
  if np.val < 0 then .error "Max profit is negative" else .ok ⟨np.val⟩

/-- Model of `Strategies::max_loss` for `ShortStraddle`: always
`Positive::INFINITY`. -/
def ShortStraddle.max_loss (_ : ShortStraddle) : Except String Positive :=
  .ok Positive.infinity

/-- Model of `Validable::validate` for `ShortStraddle` (straddle.rs lines
521-527): both legs valid and equal strikes. -/
def ShortStraddle.validate (s : ShortStraddle) : Bool :=
  s.short_call.validate && s.short_put.validate &&
    decide (s.short_call.option.strike_price.val = s.short_put.option.strike_price.val)

/-- Model of `ShortStraddle::new` (straddle.rs lines 160-243): a zero strike
defaults to the underlying price; the two short positions are built and
inserted through `add_position`, then the break-even cache is computed.
The `expect` calls become error propagation. -/
def ShortStraddle.new (underlying_symbol : String)
    (underlying_price strike0 : Positive) (expiration : ExpirationDate)
    (implied_volatility : Positive) (risk_free_rate : ℚ)
    (dividend_yield quantity premium_short_call premium_short_put
      open_fee_short_call close_fee_short_call open_fee_short_put
      close_fee_short_put : Positive) : Except String ShortStraddle := do
  let strike := if strike0.val = 0 then underlying_price else strike0
  let strategy : ShortStraddle :=
    ⟨"Short Straddle", .shortStraddle, shortStraddleDescription, [],
      Position.default, Position.default⟩
  let short_call_option : Options :=
    ⟨.european, .short, underlying_symbol, strike, expiration,
      implied_volatility, quantity, underlying_price, risk_free_rate, .call,
      dividend_yield⟩
  let short_call : Position :=
    ⟨short_call_option, premium_short_call, open_fee_short_call, close_fee_short_call⟩
  let strategy ← strategy.add_position short_call
  let short_put_option : Options :=
    ⟨.european, .short, underlying_symbol, strike, expiration,
      implied_volatility, quantity, underlying_price, risk_free_rate, .put,
      dividend_yield⟩
  let short_put : Position :=
    ⟨short_put_option, premium_short_put, open_fee_short_put, close_fee_short_put⟩
  let strategy ← strategy.add_position short_put
  strategy.update_break_even_points

/-! ## Option chain and the ShortStraddle optimizer

`chains/chain.rs`, `chains/legs.rs` and `chains/utils.rs` are not in the
staged sources; `OptionData`, the side filter and the chain iteration are
modelled from the spec (sections 4.6, 4.9 and 6) and from how the staged
`straddle.rs` reads them.  The optimizer itself (`filter_combinations`,
`find_optimal`, `create_strategy`) is embedded from the staged source. -/

/-- Modelled from the spec: a row of an option chain (spec section 6 —
missing optional quote fields are `null`, hence `Option`), with the fields
the ShortStraddle optimizer reads. -/
structure OptionData where
  strike_price : Positive
  call_bid : Option Positive
  call_ask : Option Positive
  put_bid : Option Positive
  put_ask : Option Positive
  implied_volatility : Option Positive
deriving DecidableEq

/-- Modelled from the spec: a row offers a usable call when both call quotes
are present. -/
def OptionData.validCall (d : OptionData) : Bool :=
  d.call_bid.isSome && d.call_ask.isSome

/-- Modelled from the spec: a row offers a usable put when both put quotes
are present. -/
def OptionData.validPut (d : OptionData) : Bool :=
  d.put_bid.isSome && d.put_ask.isSome

/-- Modelled from the spec: `OptionData::validate` — a positive strike, a
known implied volatility, and a complete quote on at least one side (spec
section 4.6 rejects rows missing the needed quotes). -/
def OptionData.validate (d : OptionData) : Bool :=
  decide (0 < d.strike_price.val) && d.implied_volatility.isSome &&
    (d.validCall || d.validPut)

/-- Model of `FindOptimalSide`. -/
inductive FindOptimalSide where
  | upper
  | lower
  | all
  | center
  | range (a b : Positive)
deriving DecidableEq

/-- Model of `OptimizationCriteria`. -/
inductive OptimizationCriteria where
  | ratio
  | area
deriving DecidableEq

/-- Modelled from the spec: `is_valid_optimal_side` (spec section 4.9 —
Upper keeps strikes at or above the underlying, Lower at or below, Range
within the bounds).  The Center variant is resolved by the caller into a
degenerate Range before reaching this test; here it stands for a strike
equal to the underlying. -/
def OptionData.is_valid_optimal_side (d : OptionData) (underlying : Positive)
    (side : FindOptimalSide) : Bool :=
  match side with
  | .upper => decide (underlying.val ≤ d.strike_price.val)
  | .lower => decide (d.strike_price.val ≤ underlying.val)
  | .all => true
  | .center => decide (d.strike_price.val = underlying.val)
  | .range a b => decide (a.val ≤ d.strike_price.val) && decide (d.strike_price.val ≤ b.val)

/-- Modelled from the spec: an option chain — symbol, underlying price and
the rows, strikes ascending (spec section 5: iteration is deterministic,
strikes sorted ascending). -/
structure OptionChain where
  symbol : String
  underlying_price : Positive
  options : List OptionData
deriving DecidableEq

/-- Modelled from the spec: `OptionChain::atm_strike` — the strike of the
chain row closest to the underlying price, an error on an empty chain. -/
def OptionChain.atm_strike (c : OptionChain) : Except String Positive :=
  match c.options with
  | [] => .error "No options in the chain"
  | d :: rest =>
      .ok (rest.foldl
        (fun best x =>
          if |x.strike_price.val - c.underlying_price.val| <
              |best.val - c.underlying_price.val| then x.strike_price else best)
        d.strike_price)

/-- Model of `StrategyLegs` (chains/legs.rs is not staged; the variants are
those the staged strategy files match on). -/
inductive StrategyLegs where
  | twoLegs (first second : OptionData)
  | threeLegs (first second third : OptionData)
deriving DecidableEq

/-- Model of `Optimizable::create_strategy` for `ShortStraddle` (straddle.rs
lines 610-642).  The `panic!` calls on an invalid call or put row, the
`unwrap` of the implied volatility and of the bid quotes, and the
`assert!(implied_volatility <= Positive::ONE)` all abort in the source and
are `panic:` errors here. -/
def ShortStraddle.create_strategy (s : ShortStraddle) (chain : OptionChain)
    (legs : StrategyLegs) : Except String ShortStraddle :=
  match legs with
  | .threeLegs _ _ _ => .error "panic: Invalid number of legs for this strategy"
  | .twoLegs call put =>
    if !call.validate then .error "panic: Invalid Call option"
    else if !put.validate then .error "panic: Invalid Put option"
    else
      match call.implied_volatility with
      | none => .error "panic: unwrap of None implied volatility"
      | some implied_volatility =>
        if !decide (implied_volatility.val ≤ 1) then
          .error "panic: assertion failed, implied volatility above one"
        else
          match call.call_bid, put.put_bid with
          | none, _ => .error "panic: unwrap of None call bid"
          | _, none => .error "panic: unwrap of None put bid"
          | some cb, some pb =>
            ShortStraddle.new chain.symbol chain.underlying_price
              call.strike_price s.short_call.option.expiration_date
              implied_volatility s.short_call.option.risk_free_rate
              s.short_call.option.dividend_yield s.short_call.option.quantity
              cb pb s.short_call.open_fee s.short_call.close_fee
              s.short_put.open_fee s.short_put.close_fee

/-- The side filter of `filter_combinations` (straddle.rs lines 542-555): a
Center search resolves the ATM strike — rejecting the row when that fails —
and otherwise the row is tested against the requested side. -/
def shortStraddleSideFilter (s : ShortStraddle) (chain : OptionChain)
    (side : FindOptimalSide) (both : OptionData) : Bool :=
  if side = .center then
    match chain.atm_strike with
    | .ok atm => both.is_valid_optimal_side s.short_call.option.underlying_price
        (.range atm atm)
    | .error _ => false
  else both.is_valid_optimal_side s.short_call.option.underlying_price side

/-- The quote filter of `filter_combinations` (straddle.rs lines 556-559):
`call_ask.unwrap_or(ZERO) > ZERO && put_ask.unwrap_or(ZERO) > ZERO`. -/
def shortStraddleQuoteFilter (both : OptionData) : Bool :=
  decide (0 < ((both.call_ask.getD Positive.zero).val)) &&
    decide (0 < ((both.put_ask.getD Positive.zero).val))

/-- Whether an `Except` holds a value: `Result::is_ok`. -/
def exceptIsOk {ε α : Type} (e : Except ε α) : Bool :=
  match e with
  | .ok _ => true
  | .error _ => false

/-- Recursion of `filter_combinations` over the chain rows.  The third
filter of the source constructs a candidate strategy inside the iterator;
when that construction panics, the whole enumeration aborts, hence the
`Except` result. -/
def filterCombinationsGo (s : ShortStraddle) (chain : OptionChain)
    (side : FindOptimalSide) : List OptionData → Except String (List OptionData)
  | [] => .ok []
  | both :: rest =>
    if !shortStraddleSideFilter s chain side both then
      filterCombinationsGo s chain side rest
    else if !shortStraddleQuoteFilter both then
      filterCombinationsGo s chain side rest
    else do
      let candidate ← s.create_strategy chain (.twoLegs both both)
      let keep := candidate.validate && exceptIsOk candidate.max_profit &&
        exceptIsOk candidate.max_loss
      let tail ← filterCombinationsGo s chain side rest
      .ok (if keep then both :: tail else tail)

/-- Model of `Optimizable::filter_combinations` for `ShortStraddle`
(straddle.rs lines 532-571): the chain rows surviving the side filter, the
positive-ask filter and the candidate-construction filter, in chain order.
(The source iterator is lazy; the panics it can raise are the same, and the
surviving rows identical, under this eager reading.) -/
def ShortStraddle.filter_combinations (s : ShortStraddle) (chain : OptionChain)
    (side : FindOptimalSide) : Except String (List OptionData) :=
  filterCombinationsGo s chain side chain.options

/-- Model of `Strategies::profit_ratio` for `ShortStraddle` (straddle.rs
lines 514-518): `max_profit` (zero when it errs) over the spread of the two
cached break-even points, times one hundred.  Indexing an absent point, a
negative spread (`Sub` for `Positive`) and the `Decimal::from_f64(..)
.unwrap()` on the infinite quotient of a zero spread all abort. -/
def ShortStraddle.profit_ratio (s : ShortStraddle) : Except String ℚ :=
  match s.break_even_points with
  | b0 :: b1 :: _ =>
    if b1.val < b0.val then .error "panic: Resulting value must be positive"
    else if b1.val - b0.val = 0 then .error "panic: unwrap of a non-finite quotient"
    else
      .ok (((s.max_profit.toOption.getD Positive.zero).val / (b1.val - b0.val)) * 100)
  | _ => .error "panic: break-even index out of bounds"

/-- Loop of `find_optimal` (straddle.rs lines 583-607): walk the filtered
rows, rebuild the candidate from the current state (`self` is replaced on
improvement and read again on the next iteration), score it, and keep the
best score.  `profit_area` mixes `f64` square roots and logarithms, outside
the embedding, so the Area scorer is a parameter; the Ratio scorer is the
embedded `profit_ratio`.  A scoring `unwrap` failure aborts. -/
def findOptimalGo (areaScore : ShortStraddle → Except String ℚ)
    (chain : OptionChain) (criteria : OptimizationCriteria) :
    List OptionData → ℚ → ShortStraddle → Except String ShortStraddle
  | [], _, cur => .ok cur
  | both :: rest, best_value, cur => do
    let strategy ← cur.create_strategy chain (.twoLegs both both)
    let current_value ←
      match criteria with
      | .ratio => strategy.profit_ratio
      | .area => areaScore strategy
    if best_value < current_value then
      findOptimalGo areaScore chain criteria rest current_value strategy
    else
      findOptimalGo areaScore chain criteria rest best_value cur

/-- Model of `Optimizable::find_optimal` for `ShortStraddle` (straddle.rs
lines 573-608): enumerate `filter_combinations` of a clone of the current
state, score each surviving row, and replace the strategy by the best
candidate.  The function returns the final state; the source returns `()`
and never surfaces an error value — every failure on the way is a panic,
modelled as `Except.error`. -/
def ShortStraddle.find_optimal (areaScore : ShortStraddle → Except String ℚ)
    (s : ShortStraddle) (chain : OptionChain) (side : FindOptimalSide)
    (criteria : OptimizationCriteria) : Except String ShortStraddle := do
  let groups ← s.filter_combinations chain side
  findOptimalGo areaScore chain criteria groups decimalMIN s

/-! ## LongButterflySpread validation (src/src/strategies/butterfly_spread.rs) -/

/-- Model of `LongButterflySpread` (butterfly_spread.rs lines 56-65). -/
structure LongButterflySpread where
  name : String
  kind : StrategyType
  description : String
  break_even_points : List Positive
  long_call_low : Position
  short_calls : Position
  long_call_high : Position
deriving DecidableEq

/-- Model of `Validable::validate` for `LongButterflySpread`
(butterfly_spread.rs lines 196-231): the three legs valid, strikes strictly
increasing, middle quantity double the low wing, wings equal.  The
`quantity * 2.0` of the source goes through `Mul<f64>`; the doubling is
exact for the quantities in range and is modelled as such.  Expiration
dates, styles and sides are not examined. -/
def LongButterflySpread.validate (s : LongButterflySpread) : Bool :=
  if !s.long_call_low.validate then false
  else if !s.short_calls.validate then false
  else if !s.long_call_high.validate then false
  else if s.short_calls.option.strike_price.val ≤ s.long_call_low.option.strike_price.val
    then false
  else if s.long_call_high.option.strike_price.val ≤ s.short_calls.option.strike_price.val
    then false
  else if s.short_calls.option.quantity.val ≠ s.long_call_low.option.quantity.val * 2
    then false
  else if s.long_call_low.option.quantity.val ≠ s.long_call_high.option.quantity.val
    then false
  else true

/-! ## Surfaces (src/src/surfaces/surface.rs)

`Surface.points` is a `BTreeSet<Point3D>`, modelled as a list kept sorted
and duplicate-free under the lexicographic order on `(x, y, z)`.
`surfaces/types.rs` with `Point3D` itself is not staged; the order must
distinguish points equal in `(x, y)` but not in `z`, since the staged test
`test_invalid_quadrilateral` builds a four-element set of such points. -/

/-- Model of `Point2D`. -/
structure Point2D where
  x : ℚ
  y : ℚ
deriving DecidableEq

/-- Model of `Point3D`. -/
structure Point3D where
  x : ℚ
  y : ℚ
  z : ℚ
deriving DecidableEq

/-- The strict lexicographic order on `(x, y, z)`: the `Ord` a
`BTreeSet<Point3D>` sorts by. -/
def Point3D.lt (p q : Point3D) : Bool :=
  decide (p.x < q.x) ||
    (decide (p.x = q.x) &&
      (decide (p.y < q.y) || (decide (p.y = q.y) && decide (p.z < q.z))))

/-- Insertion into the sorted duplicate-free list modelling a
`BTreeSet<Point3D>`: an element already present is not inserted again. -/
def btreeInsert (p : Point3D) : List Point3D → List Point3D
  | [] => [p]
  | q :: t => if Point3D.lt p q then p :: q :: t
      else if p = q then q :: t
      else q :: btreeInsert p t

/-- Model of `BTreeSet::from_iter` over `Point3D`. -/
def btreeFromList (l : List Point3D) : List Point3D :=
  l.foldl (fun acc p => btreeInsert p acc) []

/-- Model of `GeometricObject::calculate_range` (geometrics/utils.rs is not
staged; modelled from the spec's cached coordinate ranges): fold the
coordinates to their minimum and maximum, starting from
`(Decimal::MAX, Decimal::MIN)`. -/
def calculateRange (l : List ℚ) : ℚ × ℚ :=
  l.foldl (fun r v => (min r.1 v, max r.2 v)) (decimalMAX, decimalMIN)

/-- Model of `Surface` (surface.rs lines 22-28): the point set and the
cached coordinate ranges. -/
structure Surface where
  points : List Point3D
  x_range : ℚ × ℚ
  y_range : ℚ × ℚ
deriving DecidableEq

/-- Model of `Surface::new` (surface.rs lines 31-39). -/
def Surface.new (points : List Point3D) : Surface :=
  ⟨points, calculateRange (points.map (·.x)), calculateRange (points.map (·.y))⟩

/-- Whether a query point lies outside the cached ranges: the common range
check of every interpolation entry point. -/
def Surface.outOfRange (s : Surface) (xy : Point2D) : Bool :=
  decide (xy.x < s.x_range.1) || decide (s.x_range.2 < xy.x) ||
    decide (xy.y < s.y_range.1) || decide (s.y_range.2 < xy.y)

/-- Squared distance from a surface point to a query point, the sort key of
the nearest-point searches. -/
def distSq (p : Point3D) (xy : Point2D) : ℚ :=
  (p.x - xy.x) ^ 2 + (p.y - xy.y) ^ 2

/-- Stable insertion by a rational sort key. -/
def insertByKey {α : Type} (key : α → ℚ) (x : α) : List α → List α
  | [] => [x]
  | y :: t => if key x < key y then x :: y :: t else y :: insertByKey key x t

/-- Stable sort by a rational sort key, modelling `sort_by` with a
`partial_cmp` comparator. -/
def sortByKey {α : Type} (key : α → ℚ) (l : List α) : List α :=
  l.foldr (insertByKey key) []

/-- The quadrilateral sort key `(y, x)` of `bilinear_interpolate`, flattened
to one rational-pair comparison by sorting on `y` after a stable sort on
`x`. -/
def sortQuadPoints (l : List Point3D) : List Point3D :=
  sortByKey (·.y) (sortByKey (·.x) l)

/-- The part of `bilinear_interpolate` after the degeneracy check
(surface.rs lines 322-362): the exact-match shortcut, the four nearest
points, the quadrilateral sort and the bilinear formula, whose `Decimal`
divisions panic when the corners coincide in a coordinate. -/
def Surface.bilinearBody (s : Surface) (xy : Point2D) : Except String Point3D :=
  match s.points.find? (fun p => decide (p.x = xy.x) && decide (p.y = xy.y)) with
  | some point => .ok point
  | none =>
    let sorted_points := sortByKey (distSq · xy) s.points
    let closest_points := sorted_points.take 4
    let quad_points := sortQuadPoints closest_points
    match quad_points with
    | q11 :: q12 :: q21 :: q22 :: _ =>
      if q12.x - q11.x = 0 ∨ q21.y - q11.y = 0 then
        .error "panic: Decimal division by zero"
      else
        let x_ratio := (xy.x - q11.x) / (q12.x - q11.x)
        let y_ratio := (xy.y - q11.y) / (q21.y - q11.y)
        let z := (1 - x_ratio) * (1 - y_ratio) * q11.z +
          x_ratio * (1 - y_ratio) * q12.z +
          (1 - x_ratio) * y_ratio * q21.z + x_ratio * y_ratio * q22.z
        .ok ⟨xy.x, xy.y, z⟩
    | _ => .error "panic: quadrilateral index out of bounds"

/-- Model of `BiLinearInterpolation::bilinear_interpolate` for `Surface`
(surface.rs lines 284-363).  In order: the four-point minimum; the range
check; the coincident-quadrilateral check — the source clones the `z`
values without deduplicating them, so four points sharing the query's
`(x, y)` always fail it, whatever their `z`s; then the exact-match and
four-nearest body. -/
def Surface.bilinear_interpolate (s : Surface) (xy : Point2D) :
    Except String Point3D :=
  if s.points.length < 4 then
    .error "Need at least four points for bilinear interpolation"
  else if s.outOfRange xy then .error "Point is outside the surface's range"
  else
    let xy_points := s.points.filter (fun p => decide (p.x = xy.x) && decide (p.y = xy.y))
    if xy_points.length = 4 then
      let z_values := xy_points.map (·.z)
      let unique_z_values := z_values
      if 1 < unique_z_values.length then .error "Invalid quadrilateral"
      else Surface.bilinearBody s xy
    else Surface.bilinearBody s xy

/-- Model of `MergeOperation`. -/
inductive MergeOperation where
  | add
  | subtract
  | multiply
  | divide
  | opMax
  | opMin
deriving DecidableEq

/-- The per-grid-cell combination of interpolated values in
`Surface::merge` (surface.rs lines 812-841), including the
skip-zero-divisor fold of the Divide arm. -/
def mergeCombine (operation : MergeOperation) (z_values : List ℚ) : ℚ :=
  match operation with
  | .add => z_values.sum
  | .subtract => (z_values.headD 0) - (z_values.drop 1).sum
  | .multiply => z_values.prod
  | .divide =>
      (z_values.drop 1).foldl
        (fun acc val => if val = 0 then acc else acc / val) (z_values.headD 1)
  | .opMax => (z_values.max?).getD 0
  | .opMin => (z_values.min?).getD 0

/-- Model of `Arithmetic::merge` for `Surface` (surface.rs lines 743-850).
A single surface is returned as its clone before any resampling; several
surfaces are resampled on a 51-by-51 grid over the intersection of their
ranges through the cubic interpolation — whose `Decimal::sqrt` is
irrational and outside the embedding, hence the `interp` parameter — and
recombined pointwise. -/
def Surface.merge (interp : Surface → Point2D → Except String Point3D)
    (surfaces : List Surface) (operation : MergeOperation) :
    Except String Surface :=
  match surfaces with
  | [] => .error "No surfaces provided for merging"
  | [s0] => .ok s0
  | _ =>
    let min_x := ((surfaces.map (fun s => s.x_range.1)).max?).getD 0
    let max_x := ((surfaces.map (fun s => s.x_range.2)).min?).getD 0
    let min_y := ((surfaces.map (fun s => s.y_range.1)).max?).getD 0
    let max_y := ((surfaces.map (fun s => s.y_range.2)).min?).getD 0
    if max_x ≤ min_x ∨ max_y ≤ min_y then
      .error "Surfaces have incompatible ranges"
    else
      let steps : ℕ := 50
      let x_step := (max_x - min_x) / steps
      let y_step := (max_y - min_y) / steps
      let cells := (List.range (steps + 1)).flatMap
        (fun i => (List.range (steps + 1)).map (fun j => (i, j)))
      let result_points : Except String (List Point3D) :=
        cells.mapM (fun ij =>
          let x := min_x + x_step * ij.1
          let y := min_y + y_step * ij.2
          (surfaces.mapM (fun srf => (interp srf ⟨x, y⟩).map (·.z))).map
            (fun z_values => ⟨x, y, mergeCombine operation z_values⟩))
      result_points.map (fun pts => Surface.new (btreeFromList pts))

/-! ## Helper lemmas -/

/-- Half-even rounding never goes below the floor. -/
lemma roundHalfEven_ge_floor (x : ℚ) : Int.floor x ≤ roundHalfEven x := by
  unfold roundHalfEven
  dsimp only
  split_ifs <;> omega

/-- Half-even rounding never exceeds the floor plus one. -/
lemma roundHalfEven_le_floor_add_one (x : ℚ) : roundHalfEven x ≤ Int.floor x + 1 := by
  unfold roundHalfEven
  dsimp only
  split_ifs <;> omega

/-- Half-even rounding is monotone. -/
lemma roundHalfEven_mono {x y : ℚ} (h : x ≤ y) : roundHalfEven x ≤ roundHalfEven y := by
  rcases lt_or_eq_of_le (Int.floor_le_floor h) with hf | hf
  · calc roundHalfEven x ≤ Int.floor x + 1 := roundHalfEven_le_floor_add_one x
      _ ≤ Int.floor y := by omega
      _ ≤ roundHalfEven y := roundHalfEven_ge_floor y
  · unfold roundHalfEven
    dsimp only
    have hr : x - Int.floor x ≤ y - Int.floor y := by
      rw [hf]; exact sub_le_sub_right h _
    rw [hf]
    split_ifs <;> first
      | omega
      | (exfalso; linarith)

/-- Rounding to a fixed number of decimals is monotone. -/
lemma roundDp_mono (dp : ℕ) {x y : ℚ} (h : x ≤ y) : roundDp dp x ≤ roundDp dp y := by
  unfold roundDp
  have hp : (0:ℚ) < 10 ^ dp := by positivity
  have h1 : x * 10 ^ dp ≤ y * 10 ^ dp := mul_le_mul_of_nonneg_right h (le_of_lt hp)
  have h2 := roundHalfEven_mono h1
  exact (div_le_div_iff_of_pos_right hp).mpr (by exact_mod_cast h2)

/-- Membership after a set insertion: the new element or an old one. -/
lemma mem_btreeInsert {p q : Point3D} {l : List Point3D} :
    q ∈ btreeInsert p l ↔ q = p ∨ q ∈ l := by
  induction l with
  | nil => simp [btreeInsert]
  | cons a t ih =>
      unfold btreeInsert
      split_ifs with h1 h2
      · simp
      · subst h2; simp
      · simp [ih]; tauto

/-- Inserting an element not yet present grows the set by one. -/
lemma length_btreeInsert_of_not_mem {p : Point3D} {l : List Point3D}
    (h : p ∉ l) : (btreeInsert p l).length = l.length + 1 := by
  induction l with
  | nil => rfl
  | cons a t ih =>
      unfold btreeInsert
      split_ifs with h1 h2
      · simp
      · exact absurd (h2 ▸ List.mem_cons_self a t) h
      · simp only [List.length_cons]
        rw [ih (fun hm => h (List.mem_cons_of_mem a hm))]

/-- A property holding for the inserted element and everything present holds
after insertion. -/
lemma all_btreeInsert {P : Point3D → Prop} {p : Point3D} {l : List Point3D}
    (hp : P p) (hl : ∀ q ∈ l, P q) : ∀ q ∈ btreeInsert p l, P q := by
  intro q hq
  rcases mem_btreeInsert.mp hq with h | h
  · exact h ▸ hp
  · exact hl q h

/-- Folding minimum and maximum over a list of ones from `(1, 1)` stays at
`(1, 1)`. -/
lemma foldl_minmax_ones (l : List ℚ) (h : ∀ v ∈ l, v = 1) :
    l.foldl (fun r v => (min r.1 v, max r.2 v)) ((1 : ℚ), (1 : ℚ)) = (1, 1) := by
  induction l with
  | nil => rfl
  | cons a t ih =>
      have ha : a = 1 := h a (List.mem_cons_self a t)
      subst ha
      simp only [List.foldl_cons, min_self, max_self]
      exact ih (fun v hv => h v (List.mem_cons_of_mem _ hv))

/-- The coordinate range of a non-empty list of ones is `(1, 1)`. -/
lemma calculateRange_ones (l : List ℚ) (h : ∀ v ∈ l, v = 1) (hne : l ≠ []) :
    calculateRange l = (1, 1) := by
  match l, hne with
  | a :: t, _ =>
      have ha : a = 1 := h a (List.mem_cons_self a t)
      subst ha
      unfold calculateRange
      simp only [List.foldl_cons]
      have hmin : min (decimalMAX, decimalMIN).1 (1:ℚ) = 1 := by
        apply min_eq_right; norm_num [decimalMAX]
      have hmax : max (decimalMAX, decimalMIN).2 (1:ℚ) = 1 := by
        apply max_eq_right; norm_num [decimalMIN]
      rw [hmin, hmax]
      exact foldl_minmax_ones t (fun v hv => h v (List.mem_cons_of_mem _ hv))

/-! ## The claims -/

/-- Claim C2.  The claim says every subtraction on `Positive` whose
mathematical result would be negative fails loudly and no path returns a
wrapped negative number.  The `Sub<Positive>` path does panic, but the
`Sub<Decimal>` path (positive.rs lines 768-774) wraps the negative result
without any guard: subtracting the decimal `2` from `Positive(1)` returns a
`Positive` holding `-1`, breaking the documented type invariant — a bug in
the code, whose own doc comment promises the wrapped value is always
non-negative. -/
theorem positive_subDec_wraps_negative :
    Positive.sub ⟨1⟩ ⟨2⟩ = .error "Resulting value must be positive" ∧
    Positive.subDec ⟨1⟩ 2 = ⟨-1⟩ ∧ (Positive.subDec ⟨1⟩ 2).val < 0 := by
  refine ⟨by norm_num [Positive.sub], by norm_num [Positive.subDec], ?_⟩
  norm_num [Positive.subDec]

/-- Claim C9.  Merging the one-element list `[c]` of surfaces under any
operation — the Add operation in particular — returns `c` itself: the
single-surface branch of `Surface::merge` clones its argument before any
resampling, so the point set and both cached ranges are unchanged. -/
theorem surface_merge_singleton (interp : Surface → Point2D → Except String Point3D)
    (c : Surface) : Surface.merge interp [c] .add = .ok c := rfl

/-- Claim C7.  `ProfitLossRange::new` fails exactly when both bounds are
present and the lower is at or above the upper; in every other case it
returns a range holding exactly the given bounds and probability. -/
theorem profitLossRange_new_spec (l u : Option Positive) (p : Positive) :
    ((∃ e, ProfitLossRange.new l u p = .error e) ↔
      ∃ a b, l = some a ∧ u = some b ∧ b.val ≤ a.val) ∧
    (∀ r, ProfitLossRange.new l u p = .ok r →
      r.lower_bound = l ∧ r.upper_bound = u ∧ r.probability = p) := by
  constructor
  · constructor
    · intro ⟨e, he⟩
      match l, u with
      | some a, some b =>
          refine ⟨a, b, rfl, rfl, ?_⟩
          by_contra hab
          simp [ProfitLossRange.new, hab] at he
      | some a, none => simp [ProfitLossRange.new] at he
      | none, some b => simp [ProfitLossRange.new] at he
      | none, none => simp [ProfitLossRange.new] at he
    · intro ⟨a, b, hl, hu, hab⟩
      subst hl; subst hu
      exact ⟨"Lower bound must be less than upper bound",
        by simp [ProfitLossRange.new, hab]⟩
  · intro r hr
    match l, u with
    | some a, some b =>
        by_cases hab : b.val ≤ a.val
        · simp [ProfitLossRange.new, hab] at hr
        · simp [ProfitLossRange.new, hab] at hr
          simp [← hr]
    | some a, none => simp [ProfitLossRange.new] at hr; simp [← hr]
    | none, some b => simp [ProfitLossRange.new] at hr; simp [← hr]
    | none, none => simp [ProfitLossRange.new] at hr; simp [← hr]

/-- Witness for claim C7: at the concrete bounds `110 ≥ 100` the
construction fails. -/
theorem profitLossRange_new_spec_witness :
    ∃ e, ProfitLossRange.new (some ⟨110⟩) (some ⟨100⟩) ⟨1/2⟩ = .error e :=
  (profitLossRange_new_spec (some ⟨110⟩) (some ⟨100⟩) ⟨1/2⟩).1.mpr
    ⟨⟨110⟩, ⟨100⟩, rfl, rfl, by norm_num⟩

/-- Claim C10.  The constructors `Positive::new(0.0)` and
`Positive::new_decimal(0)` accept zero, but `Positive::from_str("0")` is
rejected: the string parser accepts only strictly positive decimals, an
asymmetry of the public interface. -/
theorem positive_zero_constructor_fromStr_asymmetry :
    Positive.new (some 0) = .ok ⟨0⟩ ∧
    Positive.new_decimal 0 = .ok ⟨0⟩ ∧
    Positive.from_str "0" = .error "Value must be positive" ∧
    (∀ s v, Positive.from_str s = .ok v → 0 < v.val) := by
  refine ⟨rfl, rfl, ?_, ?_⟩
  · norm_num [Positive.from_str, parseDecimal, parseDecCore]
    decide
  intro s v hv
  unfold Positive.from_str at hv
  match hp : parseDecimal s with
  | none => rw [hp] at hv; exact absurd hv (by simp)
  | some value =>
      rw [hp] at hv
      by_cases h0 : 0 < value
      · simp [h0] at hv
        rw [← hv]
        exact h0
      · simp [h0] at hv

/-- Witness for claim C10: the string `"3"` parses to the strictly positive
value three. -/
theorem positive_fromStr_witness : 0 < (Positive.mk 3).val :=
  positive_zero_constructor_fromStr_asymmetry.2.2.2 "3" ⟨3⟩
    (by norm_num [Positive.from_str, parseDecimal, parseDecCore]; decide)

/-- Counterexample to claim C4.  The value `10^19` is a representable
non-negative decimal (it lies below `Decimal::MAX` at scale zero and is not
the infinity sentinel), yet serializing it fails outright — scale zero
routes it to `to_i64`, and `10^19` exceeds `i64::MAX` — so encoding then
decoding cannot return the original value.  The `f64` conversion parameter
is irrelevant on this branch and instantiated with the constantly failing
function. -/
theorem serializePositive_i64_overflow :
    serializePositive (fun _ => none) ⟨10 ^ 19, 0⟩ =
      .error "Failed to convert Decimal to i64" ∧
    (0 : ℤ) ≤ 10 ^ 19 ∧ ((10 ^ 19 : ℤ) : ℚ) ≤ decimalMAX := by
  refine ⟨?_, by norm_num, by norm_num [decimalMAX]⟩
  norm_num [serializePositive, DecimalRepr.toRat, decimalMAX, i64Min, i64Max]

/-- Claim C4 as amended.  Round-tripping holds on the branches that avoid
both the `i64` overflow and the `f64` conversions: for every `Positive`
whose decimal has scale zero, a non-negative mantissa, and either fits in an
`i64` or is the infinity sentinel, serializing and then deserializing
succeeds and returns a decimal with the original value (for any behaviour of
the two floating-point conversion hooks). -/
theorem positive_serialize_roundtrip_integer
    (toF64 : DecimalRepr → Option ℚ) (fromF64 : ℚ → Option DecimalRepr)
    (d : DecimalRepr) (hs : d.scale = 0) (h0 : 0 ≤ d.m)
    (hm : d.m ≤ i64Max ∨ (d.m : ℚ) = decimalMAX) :
    ∃ j d2, serializePositive toF64 d = .ok j ∧
      deserializePositive fromF64 j = .ok d2 ∧ d2.toRat = d.toRat := by
  obtain ⟨m, sc⟩ := d
  dsimp only at hs h0 hm ⊢
  subst hs
  have ht : DecimalRepr.toRat ⟨m, 0⟩ = (m : ℚ) := by
    simp [DecimalRepr.toRat]
  rcases hm with hm | hm
  · have hne : ((m : ℚ) ≠ decimalMAX) := by
      intro h
      rw [decimalMAX] at h
      have hm2 : m = 79228162514264337593543950335 := by exact_mod_cast h
      rw [i64Max] at hm
      omega
    have hlo : i64Min ≤ m := by rw [i64Min]; omega
    refine ⟨.int m, ⟨m, 0⟩, ?_, ?_, rfl⟩
    · simp [serializePositive, ht, hne, hlo, hm]
    · simp [deserializePositive]
      omega
  · refine ⟨.str "infinity", ⟨79228162514264337593543950335, 0⟩, ?_, ?_, ?_⟩
    · simp [serializePositive, ht, hm]
    · simp [deserializePositive, eqIgnoreAsciiCase]
    · rw [DecimalRepr.toRat, ht, hm, decimalMAX]
      norm_num

/-- Witness for claim C4 as amended: the decimal `42` (scale zero) round
trips, with both conversion hooks instantiated as constant failures. -/
theorem positive_serialize_roundtrip_witness :
    ∃ j d2, serializePositive (fun _ => none) ⟨42, 0⟩ = .ok j ∧
      deserializePositive (fun _ => none) j = .ok d2 ∧
      d2.toRat = DecimalRepr.toRat ⟨42, 0⟩ :=
  positive_serialize_roundtrip_integer (fun _ => none) (fun _ => none) ⟨42, 0⟩
    rfl (by norm_num) (Or.inl (by norm_num [i64Max]))

/-- A concrete short-call contract at strike 100 used by the concrete
instances below. -/
def cOptionShortCall : Options :=
  ⟨.european, .short, "CL", ⟨100⟩, .days 30, ⟨1/5⟩, ⟨1⟩, ⟨100⟩, 1/20, .call, ⟨0⟩⟩

/-- A concrete short-put contract at strike 100. -/
def cOptionShortPut : Options :=
  ⟨.european, .short, "CL", ⟨100⟩, .days 30, ⟨1/5⟩, ⟨1⟩, ⟨100⟩, 1/20, .put, ⟨0⟩⟩

/-- A concrete valid short straddle at strike 100 with its break-even cache
filled. -/
def cStraddle : ShortStraddle :=
  ⟨"Short Straddle", .shortStraddle, shortStraddleDescription,
    [⟨96⟩, ⟨104⟩], ⟨cOptionShortCall, ⟨2⟩, ⟨0⟩, ⟨0⟩⟩, ⟨cOptionShortPut, ⟨2⟩, ⟨0⟩, ⟨0⟩⟩⟩

/-- A concrete long-call position at strike 120 — the wrong side and a
strike matching no slot of `cStraddle`. -/
def cLongCallPosition : Position :=
  ⟨⟨.european, .long, "CL", ⟨120⟩, .days 30, ⟨1/5⟩, ⟨1⟩, ⟨100⟩, 1/20, .call, ⟨0⟩⟩,
    ⟨3⟩, ⟨0⟩, ⟨0⟩⟩

/-- Counterexample to claim C8.  Adding a Long-side call at strike 120 — a
position whose shape is incompatible with the short straddle at strike
100 — does not fail: `add_position` returns `Ok` and overwrites the
`short_call` leg, so the legs do not stay unchanged. -/
theorem shortStraddle_add_position_accepts_long :
    cStraddle.add_position cLongCallPosition =
      .ok { cStraddle with short_call := cLongCallPosition } ∧
    cLongCallPosition.option.side = .long ∧
    cLongCallPosition.option.strike_price ≠ cStraddle.short_call.option.strike_price ∧
    cLongCallPosition.option.strike_price ≠ cStraddle.short_put.option.strike_price ∧
    { cStraddle with short_call := cLongCallPosition } ≠ cStraddle := by
  refine ⟨rfl, rfl, ?_, ?_, ?_⟩
  · norm_num [cLongCallPosition, cStraddle, cOptionShortCall]
  · norm_num [cLongCallPosition, cStraddle, cOptionShortPut]
  · norm_num [cLongCallPosition, cStraddle, cOptionShortCall, Position.mk.injEq,
      Options.mk.injEq]

/-- Claim C8 as amended.  `add_position` on a `ShortStraddle` never fails:
whatever the side or strike, a call-style position replaces the `short_call`
leg and a put-style position replaces the `short_put` leg, the other leg and
the cached break-even points untouched. -/
theorem shortStraddle_add_position_total (s : ShortStraddle) (p : Position) :
    ∃ s2, s.add_position p = .ok s2 ∧
      (p.option.option_style = .call →
        s2 = { s with short_call := p }) ∧
      (p.option.option_style = .put →
        s2 = { s with short_put := p }) := by
  match hst : p.option.option_style with
  | .call =>
      refine ⟨{ s with short_call := p }, ?_, fun _ => rfl,
        fun hput => absurd hput (by simp)⟩
      simp [ShortStraddle.add_position, hst]
  | .put =>
      refine ⟨{ s with short_put := p }, ?_,
        fun hcall => absurd hcall (by simp), fun _ => rfl⟩
      simp [ShortStraddle.add_position, hst]

/-- Witness for claim C8 as amended: the concrete long call is accepted into
the call slot. -/
theorem shortStraddle_add_position_total_witness :
    ∃ s2, cStraddle.add_position cLongCallPosition = .ok s2 ∧
      (cLongCallPosition.option.option_style = .call →
        s2 = { cStraddle with short_call := cLongCallPosition }) ∧
      (cLongCallPosition.option.option_style = .put →
        s2 = { cStraddle with short_put := cLongCallPosition }) :=
  shortStraddle_add_position_total cStraddle cLongCallPosition

/-! ## Claim C6: LongButterflySpread validation -/

/-- A long call wing at strike 90, quantity one, expiring in 30 days. -/
def cWingLow : Position :=
  ⟨⟨.european, .long, "X", ⟨90⟩, .days 30, ⟨1/5⟩, ⟨1⟩, ⟨100⟩, 1/20, .call, ⟨0⟩⟩,
    ⟨3⟩, ⟨1/20⟩, ⟨1/20⟩⟩

/-- The short body at strike 100, quantity two, expiring in 30 days. -/
def cBody : Position :=
  ⟨⟨.european, .short, "X", ⟨100⟩, .days 30, ⟨1/5⟩, ⟨2⟩, ⟨100⟩, 1/20, .call, ⟨0⟩⟩,
    ⟨2⟩, ⟨1/20⟩, ⟨1/20⟩⟩

/-- A long call wing at strike 110, quantity one — but expiring in 60 days,
unlike the other two legs. -/
def cWingHighLate : Position :=
  ⟨⟨.european, .long, "X", ⟨110⟩, .days 60, ⟨1/5⟩, ⟨1⟩, ⟨100⟩, 1/20, .call, ⟨0⟩⟩,
    ⟨1⟩, ⟨1/20⟩, ⟨1/20⟩⟩

/-- A long butterfly whose high wing expires 30 days after the other legs;
such a state is reachable through the public `add_position`, which replaces
a wing without examining expirations. -/
def cButterflyMixedExpiry : LongButterflySpread :=
  ⟨"Long Butterfly", .longButterflySpread, "Long Butterfly", [],
    cWingLow, cBody, cWingHighLate⟩

/-- A double negation on `Bool`: from the failure of `!b` follows `b`. -/
lemma bool_of_not_not {b : Bool} (h : ¬(!b) = true) : b = true := by
  cases b
  · simp at h
  · rfl

/-- From `!b` follows that `b` fails. -/
lemma bool_not_of_not {b : Bool} (h : (!b) = true) : ¬b = true := by
  cases b <;> simp_all

/-- Counterexample to claim C6.  `validate()` returns `true` for a butterfly
whose legs do not share an expiration date: the validator checks leg
validity, strike ordering and the quantity ratios, but never the
expirations, so the claim's only-when condition fails. -/
theorem longButterfly_validate_ignores_expiration :
    cButterflyMixedExpiry.validate = true ∧
    cButterflyMixedExpiry.long_call_low.option.expiration_date ≠
      cButterflyMixedExpiry.long_call_high.option.expiration_date := by
  constructor
  · norm_num [LongButterflySpread.validate, cButterflyMixedExpiry, cWingLow,
      cBody, cWingHighLate, Position.validate, Options.validate, minVol, maxVol]
  · norm_num [cButterflyMixedExpiry, cWingLow, cWingHighLate,
      ExpirationDate.days.injEq]

/-- Claim C6 as amended.  `validate()` returns `true` exactly when the three
legs are individually valid, the strikes are strictly ordered, the middle
quantity is double the low wing and the wings are equal — expiration dates
(and leg styles and sides) are not examined. -/
theorem longButterfly_validate_iff (s : LongButterflySpread) :
    s.validate = true ↔
      (s.long_call_low.validate = true ∧ s.short_calls.validate = true ∧
        s.long_call_high.validate = true ∧
        s.long_call_low.option.strike_price.val <
          s.short_calls.option.strike_price.val ∧
        s.short_calls.option.strike_price.val <
          s.long_call_high.option.strike_price.val ∧
        s.short_calls.option.quantity.val =
          s.long_call_low.option.quantity.val * 2 ∧
        s.long_call_low.option.quantity.val =
          s.long_call_high.option.quantity.val) := by
  unfold LongButterflySpread.validate
  constructor
  · intro h
    split_ifs at h with h1 h2 h3 h4 h5 h6 h7
    exact ⟨bool_of_not_not h1, bool_of_not_not h2, bool_of_not_not h3,
      lt_of_not_le h4, lt_of_not_le h5, not_ne_iff.mp h6, not_ne_iff.mp h7⟩
  · rintro ⟨v1, v2, v3, hlt1, hlt2, hq1, hq2⟩
    split_ifs with h1 h2 h3 h4 h5 h6 h7
    · exact absurd v1 (bool_not_of_not h1)
    · exact absurd v2 (bool_not_of_not h2)
    · exact absurd v3 (bool_not_of_not h3)
    · exact absurd h4 (not_le.mpr hlt1)
    · exact absurd h5 (not_le.mpr hlt2)
    · exact absurd hq1 h6
    · exact absurd hq2 h7
    · rfl

/-! ## Claim C5: bilinear interpolation on four coincident points -/

/-- Claim C5.  A surface built from four points that all sit at
`(x, y) = (1, 1)` with pairwise distinct `z` keeps all four in its
`BTreeSet` (the point order distinguishes `z`), and
`bilinear_interpolate((1, 1))` then returns the `Invalid quadrilateral`
error rather than any interpolated point: the four-point minimum and the
range check pass, and the coincident-quadrilateral check fires before the
exact-match shortcut can return a point. -/
theorem bilinear_invalid_quadrilateral (z1 z2 z3 z4 : ℚ)
    (h12 : z1 ≠ z2) (h13 : z1 ≠ z3) (h14 : z1 ≠ z4)
    (h23 : z2 ≠ z3) (h24 : z2 ≠ z4) (h34 : z3 ≠ z4) :
    (Surface.new (btreeFromList
      [⟨1, 1, z1⟩, ⟨1, 1, z2⟩, ⟨1, 1, z3⟩, ⟨1, 1, z4⟩])).bilinear_interpolate
      ⟨1, 1⟩ = .error "Invalid quadrilateral" := by
  set p1 : Point3D := ⟨1, 1, z1⟩ with hp1
  set p2 : Point3D := ⟨1, 1, z2⟩ with hp2
  set p3 : Point3D := ⟨1, 1, z3⟩ with hp3
  set p4 : Point3D := ⟨1, 1, z4⟩ with hp4
  have hL : btreeFromList [p1, p2, p3, p4] =
      btreeInsert p4 (btreeInsert p3 (btreeInsert p2 (btreeInsert p1 []))) := rfl
  set L1 := btreeInsert p1 ([] : List Point3D) with hL1
  set L2 := btreeInsert p2 L1 with hL2
  set L3 := btreeInsert p3 L2 with hL3
  set L := btreeInsert p4 L3 with hLdef
  have hne21 : p2 ≠ p1 := by simp [hp1, hp2, Point3D.mk.injEq]; intro h; exact absurd h.symm h12
  have hne31 : p3 ≠ p1 := by simp [hp1, hp3, Point3D.mk.injEq]; intro h; exact absurd h.symm h13
  have hne32 : p3 ≠ p2 := by simp [hp2, hp3, Point3D.mk.injEq]; intro h; exact absurd h.symm h23
  have hne41 : p4 ≠ p1 := by simp [hp1, hp4, Point3D.mk.injEq]; intro h; exact absurd h.symm h14
  have hne42 : p4 ≠ p2 := by simp [hp2, hp4, Point3D.mk.injEq]; intro h; exact absurd h.symm h24
  have hne43 : p4 ≠ p3 := by simp [hp3, hp4, Point3D.mk.injEq]; intro h; exact absurd h.symm h34
  have hlen1 : L1.length = 1 := rfl
  have hmem1 : ∀ q, q ∈ L1 ↔ q = p1 := by
    intro q; rw [hL1, mem_btreeInsert]; simp
  have hlen2 : L2.length = 2 := by
    rw [hL2, length_btreeInsert_of_not_mem, hlen1]
    rw [hmem1]; exact hne21
  have hmem2 : ∀ q, q ∈ L2 ↔ q = p2 ∨ q = p1 := by
    intro q; rw [hL2, mem_btreeInsert, hmem1]
  have hlen3 : L3.length = 3 := by
    rw [hL3, length_btreeInsert_of_not_mem, hlen2]
    rw [hmem2]; push_neg; exact ⟨hne32, hne31⟩
  have hmem3 : ∀ q, q ∈ L3 ↔ q = p3 ∨ q = p2 ∨ q = p1 := by
    intro q; rw [hL3, mem_btreeInsert, hmem2]
  have hlen : L.length = 4 := by
    rw [hLdef, length_btreeInsert_of_not_mem, hlen3]
    rw [hmem3]; push_neg; exact ⟨hne43, hne42, hne41⟩
  have hall : ∀ q ∈ L, q.x = 1 ∧ q.y = 1 := by
    intro q hq
    rw [hLdef, mem_btreeInsert, hmem3] at hq
    rcases hq with h | h | h | h <;> subst h <;> exact ⟨rfl, rfl⟩
  have hne : L ≠ [] := by
    intro h; rw [h] at hlen; exact absurd hlen (by simp)
  have hxr : calculateRange (L.map (·.x)) = (1, 1) := by
    apply calculateRange_ones
    · intro v hv
      rcases List.mem_map.mp hv with ⟨q, hq, hqv⟩
      rw [← hqv]; exact (hall q hq).1
    · simp [hne]
  have hyr : calculateRange (L.map (·.y)) = (1, 1) := by
    apply calculateRange_ones
    · intro v hv
      rcases List.mem_map.mp hv with ⟨q, hq, hqv⟩
      rw [← hqv]; exact (hall q hq).2
    · simp [hne]
  have hfilter : L.filter
      (fun p => decide (p.x = (1:ℚ)) && decide (p.y = (1:ℚ))) = L := by
    apply List.filter_eq_self.mpr
    intro a ha
    simp [(hall a ha).1, (hall a ha).2]
  rw [hL]
  show (Surface.new L).bilinear_interpolate ⟨1, 1⟩ = .error "Invalid quadrilateral"
  unfold Surface.bilinear_interpolate Surface.new
  simp only [Surface.outOfRange, hxr, hyr, hlen, hfilter]
  norm_num [List.length_map, hlen, hfilter]

/-- Witness for claim C5: the four points at `(1, 1)` with `z` values
`0, 1, 2, 3` — the shape of the staged regression test — produce the
`Invalid quadrilateral` error. -/
theorem bilinear_invalid_quadrilateral_witness :
    (Surface.new (btreeFromList
      [⟨1, 1, 0⟩, ⟨1, 1, 1⟩, ⟨1, 1, 2⟩, ⟨1, 1, 3⟩])).bilinear_interpolate
      ⟨1, 1⟩ = .error "Invalid quadrilateral" :=
  bilinear_invalid_quadrilateral 0 1 2 3 (by norm_num) (by norm_num)
    (by norm_num) (by norm_num) (by norm_num) (by norm_num)

/-! ## Claim C1: short-straddle max profit and break-even points -/

/-- Sorting a two-element list whose first entry is no larger than its
second leaves it in place. -/
lemma sortPositives_pair (a b : Positive) (h : a.val ≤ b.val) :
    sortPositives [a, b] = [a, b] := by
  unfold sortPositives
  simp only [List.foldr]
  show insertPosSorted a (insertPosSorted b []) = [a, b]
  unfold insertPosSorted
  by_cases hlt : a.val < b.val
  · simp [insertPosSorted, hlt]
  · have heq : a.val = b.val := le_antisymm h (not_lt.mp hlt)
    have hab : a = b := by
      cases a; cases b; simpa using heq
    simp [insertPosSorted, hlt, hab]

/-- Claim C1.  A `ShortStraddle` built at a non-zero strike `K` with
quantity `q > 0` whose legs collect the total credit
`C = (pc + pp) * q` against total fees
`F = (ofc + cfc + ofp + cfp) * q`, with `C - F` non-negative, reports
`max_profit() = C - F`, and its cached break-even points are exactly
`K - (C - F)/q` and `K + (C - F)/q` rounded to two decimals, in ascending
order. -/
theorem shortStraddle_new_profit_breakevens
    (sym : String) (S K : Positive) (e : ExpirationDate) (iv : Positive)
    (r : ℚ) (dy q pc pp ofc cfc ofp cfp : Positive)
    (hK : K.val ≠ 0) (hq : 0 < q.val)
    (hN : 0 ≤ (pc.val + pp.val) * q.val - (ofc.val + cfc.val + ofp.val + cfp.val) * q.val) :
    ∃ s, ShortStraddle.new sym S K e iv r dy q pc pp ofc cfc ofp cfp = .ok s ∧
      s.max_profit = .ok ⟨(pc.val + pp.val) * q.val - (ofc.val + cfc.val + ofp.val + cfp.val) * q.val⟩ ∧
      s.break_even_points =
        [⟨roundDp 2 (K.val - ((pc.val + pp.val) * q.val - (ofc.val + cfc.val + ofp.val + cfp.val) * q.val) / q.val)⟩,
         ⟨roundDp 2 (K.val + ((pc.val + pp.val) * q.val - (ofc.val + cfc.val + ofp.val + cfp.val) * q.val) / q.val)⟩] ∧
      roundDp 2 (K.val - ((pc.val + pp.val) * q.val - (ofc.val + cfc.val + ofp.val + cfp.val) * q.val) / q.val) ≤
        roundDp 2 (K.val + ((pc.val + pp.val) * q.val - (ofc.val + cfc.val + ofp.val + cfp.val) * q.val) / q.val) := by
  have hNN : (pc.val * q.val - (ofc.val + cfc.val) * q.val) + (pp.val * q.val - (ofp.val + cfp.val) * q.val) = (pc.val + pp.val) * q.val - (ofc.val + cfc.val + ofp.val + cfp.val) * q.val := by ring
  have hdiv : (0 : ℚ) ≤ ((pc.val + pp.val) * q.val - (ofc.val + cfc.val + ofp.val + cfp.val) * q.val) / q.val := div_nonneg hN (le_of_lt hq)
  have hord : roundDp 2 (K.val - ((pc.val + pp.val) * q.val - (ofc.val + cfc.val + ofp.val + cfp.val) * q.val) / q.val) ≤
      roundDp 2 (K.val + ((pc.val + pp.val) * q.val - (ofc.val + cfc.val + ofp.val + cfp.val) * q.val) / q.val) :=
    roundDp_mono 2 (by linarith)
  have harg1 : K.val - ((pc.val * q.val - (ofc.val + cfc.val) * q.val) + (pp.val * q.val - (ofp.val + cfp.val) * q.val)) / q.val = K.val - ((pc.val + pp.val) * q.val - (ofc.val + cfc.val + ofp.val + cfp.val) * q.val) / q.val := by rw [hNN]
  have harg2 : K.val + ((pc.val * q.val - (ofc.val + cfc.val) * q.val) + (pp.val * q.val - (ofp.val + cfp.val) * q.val)) / q.val = K.val + ((pc.val + pp.val) * q.val - (ofc.val + cfc.val + ofp.val + cfp.val) * q.val) / q.val := by rw [hNN]
  have hnew : ShortStraddle.new sym S K e iv r dy q pc pp ofc cfc ofp cfp = .ok
      ⟨"Short Straddle", .shortStraddle, shortStraddleDescription,
        sortPositives [⟨roundDp 2 (K.val - ((pc.val * q.val - (ofc.val + cfc.val) * q.val) + (pp.val * q.val - (ofp.val + cfp.val) * q.val)) / q.val)⟩,
          ⟨roundDp 2 (K.val + ((pc.val * q.val - (ofc.val + cfc.val) * q.val) + (pp.val * q.val - (ofp.val + cfp.val) * q.val)) / q.val)⟩],
        ⟨⟨.european, .short, sym, K, e, iv, q, S, r, .call, dy⟩, pc, ofc, cfc⟩,
        ⟨⟨.european, .short, sym, K, e, iv, q, S, r, .put, dy⟩, pp, ofp, cfp⟩⟩ := by
    unfold ShortStraddle.new
    rw [if_neg hK]
    rfl
  rw [harg1, harg2] at hnew
  rw [sortPositives_pair ⟨roundDp 2 (K.val - ((pc.val + pp.val) * q.val - (ofc.val + cfc.val + ofp.val + cfp.val) * q.val) / q.val)⟩
    ⟨roundDp 2 (K.val + ((pc.val + pp.val) * q.val - (ofc.val + cfc.val + ofp.val + cfp.val) * q.val) / q.val)⟩ hord] at hnew
  refine ⟨_, hnew, ?_, rfl, hord⟩
  have hmp : (⟨"Short Straddle", .shortStraddle, shortStraddleDescription,
      [⟨roundDp 2 (K.val - ((pc.val + pp.val) * q.val - (ofc.val + cfc.val + ofp.val + cfp.val) * q.val) / q.val)⟩,
        ⟨roundDp 2 (K.val + ((pc.val + pp.val) * q.val - (ofc.val + cfc.val + ofp.val + cfp.val) * q.val) / q.val)⟩],
      ⟨⟨.european, .short, sym, K, e, iv, q, S, r, .call, dy⟩, pc, ofc, cfc⟩,
      ⟨⟨.european, .short, sym, K, e, iv, q, S, r, .put, dy⟩, pp, ofp, cfp⟩⟩ :
        ShortStraddle).max_profit =
      if ((pc.val * q.val - (ofc.val + cfc.val) * q.val) + (pp.val * q.val - (ofp.val + cfp.val) * q.val)) < 0 then .error "Max profit is negative"
      else .ok ⟨(pc.val * q.val - (ofc.val + cfc.val) * q.val) + (pp.val * q.val - (ofp.val + cfp.val) * q.val)⟩ := rfl
  rw [hmp, if_neg (not_lt.mpr (hNN ▸ hN))]
  rw [hNN]

/-- Rounding fixes any rational that is already an integer multiple of the
target precision. -/
lemma roundDp_exact (dp : ℕ) (x : ℚ) (n : ℤ) (h : x * 10 ^ dp = n) :
    roundDp dp x = x := by
  unfold roundDp roundHalfEven
  rw [h]
  have hfl : Int.floor ((n : ℚ)) = n := Int.floor_intCast n
  simp only [hfl, sub_self]
  norm_num
  have hp : ((10 : ℚ) ^ dp) ≠ 0 := by positivity
  field_simp
  linarith [h]

/-- Witness for claim C1: a straddle sold at strike 150, quantity 2,
premiums 2 and 1.5, four fees of 0.1 — total credit 7 against fees 0.8 —
has max profit 6.2 and break-even points 146.9 and 153.1. -/
theorem shortStraddle_new_profit_breakevens_witness :
    ∃ s, ShortStraddle.new "AAPL" ⟨150⟩ ⟨150⟩ (.days 30) ⟨1/5⟩ (1/100) ⟨1/50⟩
        ⟨2⟩ ⟨2⟩ ⟨3/2⟩ ⟨1/10⟩ ⟨1/10⟩ ⟨1/10⟩ ⟨1/10⟩ = .ok s ∧
      s.max_profit = .ok ⟨31/5⟩ ∧
      s.break_even_points = [⟨1469/10⟩, ⟨1531/10⟩] := by
  obtain ⟨s, h1, h2, h3, _⟩ :=
    shortStraddle_new_profit_breakevens "AAPL" ⟨150⟩ ⟨150⟩ (.days 30) ⟨1/5⟩
      (1/100) ⟨1/50⟩ ⟨2⟩ ⟨2⟩ ⟨3/2⟩ ⟨1/10⟩ ⟨1/10⟩ ⟨1/10⟩ ⟨1/10⟩
      (by norm_num) (by norm_num) (by norm_num)
  dsimp only at h2 h3
  refine ⟨s, h1, ?_, ?_⟩
  · rw [h2]
    norm_num [Positive.mk.injEq]
  · rw [h3]
    norm_num [Positive.mk.injEq]
    exact ⟨roundDp_exact 2 _ 14690 (by norm_num), roundDp_exact 2 _ 15310 (by norm_num)⟩

/-! ## Claim C3: the ShortStraddle optimizer and process aborts -/

/-- Bind on a failed `Except` propagates the failure. -/
lemma except_bind_error {ε α β : Type} (e : ε) (f : α → Except ε β) :
    (Except.error e : Except ε α) >>= f = .error e := rfl

/-- Bind on a successful `Except` applies the continuation. -/
lemma except_bind_ok {ε α β : Type} (a : α) (f : α → Except ε β) :
    (Except.ok a : Except ε α) >>= f = f a := rfl

/-- A chain row with complete put quotes and a call ask but no call bid:
it passes `OptionData::validate` (the put side is fully quoted) and the
optimizer's positive-ask filter, yet `create_strategy` has to unwrap its
absent call bid. -/
def cRowMissingBid : OptionData :=
  ⟨⟨100⟩, none, some ⟨1⟩, some ⟨1⟩, some ⟨1⟩, some ⟨1/5⟩⟩

/-- A one-row chain around the missing-bid row. -/
def cChainMissingBid : OptionChain := ⟨"CL", ⟨100⟩, [cRowMissingBid]⟩

/-- Counterexample to claim C3.  On this chain `find_optimal` does not skip
the erroring candidate and surfaces no tagged result: the row passes the
side and positive-ask filters, its construction panics on the absent call
bid (`call.call_bid.unwrap()` in `create_strategy`), and the process
aborts — modelled as the `panic:` error — even with a total Area scorer. -/
theorem findOptimal_aborts_on_missing_bid :
    cStraddle.find_optimal (fun _ => .ok 0) cChainMissingBid .all .ratio =
      .error "panic: unwrap of None call bid" := by
  norm_num [ShortStraddle.find_optimal, ShortStraddle.filter_combinations,
    cChainMissingBid, cRowMissingBid, cStraddle, cOptionShortCall,
    cOptionShortPut, filterCombinationsGo, shortStraddleSideFilter,
    shortStraddleQuoteFilter, OptionData.is_valid_optimal_side,
    OptionData.validate, OptionData.validCall, OptionData.validPut,
    ShortStraddle.create_strategy, Positive.zero, except_bind_error,
    except_bind_ok]
  rw [if_neg (by simp)]
  rfl

/-- Every chain row rejected by the side filter or the positive-ask filter
is skipped without constructing a candidate: the enumeration over such a
list yields no group and no error. -/
lemma filterCombinationsGo_all_rejected (s : ShortStraddle)
    (chain : OptionChain) (side : FindOptimalSide) :
    ∀ l : List OptionData,
      (∀ b ∈ l, shortStraddleSideFilter s chain side b = false ∨
        shortStraddleQuoteFilter b = false) →
      filterCombinationsGo s chain side l = .ok [] := by
  intro l
  induction l with
  | nil => intro _; rfl
  | cons b t ih =>
      intro h
      have hb := h b (List.mem_cons_self b t)
      have ht := ih (fun x hx => h x (List.mem_cons_of_mem b hx))
      unfold filterCombinationsGo
      rcases hb with hb | hb
      · rw [hb]
        simpa using ht
      · by_cases hs : shortStraddleSideFilter s chain side b
        · rw [hs, hb]
          simpa using ht
        · rw [Bool.eq_false_iff.mpr hs]
          simpa using ht

/-- Claim C3 as amended.  Candidates rejected by the side filter or missing
a positive call or put ask are skipped silently; in particular, on a chain
in which every row is so rejected, `find_optimal` terminates without any
abort and leaves the strategy unchanged — no error value is surfaced to the
caller.  (A filtered-in candidate that errs during construction instead
panics, as the counterexample shows.) -/
theorem findOptimal_skips_rejected_rows
    (areaScore : ShortStraddle → Except String ℚ) (s : ShortStraddle)
    (chain : OptionChain) (side : FindOptimalSide)
    (criteria : OptimizationCriteria)
    (h : ∀ b ∈ chain.options, shortStraddleSideFilter s chain side b = false ∨
      shortStraddleQuoteFilter b = false) :
    s.find_optimal areaScore chain side criteria = .ok s := by
  unfold ShortStraddle.find_optimal ShortStraddle.filter_combinations
  rw [filterCombinationsGo_all_rejected s chain side chain.options h]
  rfl

/-- A chain row with no quotes at all. -/
def cRowNoQuotes : OptionData := ⟨⟨100⟩, none, none, none, none, none⟩

/-- A one-row chain whose only row has no quotes. -/
def cChainNoQuotes : OptionChain := ⟨"CL", ⟨100⟩, [cRowNoQuotes]⟩

/-- Witness for claim C3 as amended: on the quoteless one-row chain the
optimizer returns with the strategy unchanged. -/
theorem findOptimal_skips_rejected_rows_witness :
    cStraddle.find_optimal (fun _ => .ok 0) cChainNoQuotes .all .ratio =
      .ok cStraddle := by
  apply findOptimal_skips_rejected_rows
  intro b hb
  right
  have hbrow : b = cRowNoQuotes := by
    simpa [cChainNoQuotes] using hb
  subst hbrow
  norm_num [shortStraddleQuoteFilter, cRowNoQuotes, Positive.zero]

end OptionStrat
